import Mathlib

/-!
Verification of the inference-to-visualization pipeline of `src/App.tsx`
(TensorFlow Lite janken classifier with a Grad-CAM-style heatmap).

Modelling conventions.  JavaScript numbers are embedded as real numbers; a
value that can become non-finite (`NaN` or `±Infinity`) is embedded as
`Option ℝ`, where `none` stands for a non-finite value.  In the embedded
code the only source of non-finite values is division (`x / 0` is
`±Infinity`, `0 / 0` is `NaN`), together with their propagation through
arithmetic, `Math.min`/`Math.max` over arrays, and bilinear resampling.
Classifier scores are embedded as rationals (floats are dyadic rationals),
images as functions `ℕ → ℕ → Fin 3 → ℝ` giving the three channel values of
each pixel.
-/

/-- Division as JavaScript computes it: a zero denominator produces a
non-finite result (`0 / 0` is `NaN`, otherwise `±Infinity`), embedded as
`none`. -/
noncomputable def jsDiv (a b : ℝ) : Option ℝ :=
  if b = 0 then none else some (a / b)

/-- Subtraction on possibly non-finite values: any non-finite operand makes
the result non-finite (`NaN - NaN = NaN`). -/
def optSub : Option ℝ → Option ℝ → Option ℝ
  | some a, some b => some (a - b)
  | _, _ => none

/-- Division on possibly non-finite values. -/
noncomputable def optDiv : Option ℝ → Option ℝ → Option ℝ
  | some a, some b => jsDiv a b
  | _, _ => none

/-- Binary `Math.min` step: `Math.min` returns `NaN` whenever an argument is
non-finite `NaN`; we conservatively make any `none` absorbing, which matches
the embedded code since its non-finite values are produced pixel-wise as
`NaN`. -/
def jsMin2 {α : Type*} [LinearOrder α] : Option α → Option α → Option α
  | some a, some b => some (min a b)
  | _, _ => none

/-- Binary `Math.max` step, dual to `jsMin2`. -/
def jsMax2 {α : Type*} [LinearOrder α] : Option α → Option α → Option α
  | some a, some b => some (max a b)
  | _, _ => none

/-- `Math.min(...l)`: `none` for the empty spread (JavaScript yields the
non-finite `Infinity`) and `none` as soon as one element is non-finite. -/
def jsMinList {α : Type*} [LinearOrder α] : List (Option α) → Option α
  | [] => none
  | x :: xs => xs.foldl jsMin2 x

/-- `Math.max(...l)`, dual to `jsMinList` (empty spread: `-Infinity`). -/
def jsMaxList {α : Type*} [LinearOrder α] : List (Option α) → Option α
  | [] => none
  | x :: xs => xs.foldl jsMax2 x

/-- Row-major flattening of a `h × w` grid, as `dataSync()` exposes a
2-D tensor. -/
def gridList {α : Type*} (h w : ℕ) (f : ℕ → ℕ → α) : List α :=
  (List.range h).flatMap fun y => (List.range w).map fun x => f y x

/-! Source definitions, translated from `src/App.tsx`. -/

/-- Label list `JANKEN_LABELS` (App.tsx line 25). -/
def JANKEN_LABELS : List String := ["グー", "チョキ", "パー"]

/-- Positional label lookup of line 439:
the expression is JANKEN_LABELS[index] with the template string
as fallback for a missing index. -/
def jankenLabel (i : ℕ) : String :=
  JANKEN_LABELS.getD i ("Class " ++ toString i)

/-- Prediction list built by `runInference` (lines 436-442): take the first
three scores, pair each with its positional label, and stable-sort by the
comparator on confidences, descending (the JavaScript comparator
keeps `a` before `b` exactly when `b.confidence ≤ a.confidence`). -/
def inferenceResults (data : List ℚ) : List (String × ℚ) :=
  ((data.take 3).mapIdx fun i c => (jankenLabel i, c)).mergeSort
    fun a b => decide (b.2 ≤ a.2)

/-- Confidence boost of `generateGradCAM` (lines 293-294):
`Math.max(0.3, Math.max(...predictions) * 2)`.  For an empty vector the
inner spread max is `-Infinity` (embedded `none`) and the outer
`Math.max` then returns `0.3`. -/
def confidenceBoost (predictions : List ℚ) : ℚ :=
  match jsMaxList (predictions.map some) with
  | none => 0.3
  | some m => max 0.3 (m * 2)

/-- Per-pixel channel mean `grayscale` (line 301). -/
noncomputable def grayscale (img : ℕ → ℕ → Fin 3 → ℝ) (y x : ℕ) : ℝ :=
  (img y x 0 + img y x 1 + img y x 2) / 3

/-- Global maximum of the grayscale grid, `tf.max(grayscale)` (line 304). -/
noncomputable def grayscaleMax (h w : ℕ) (img : ℕ → ℕ → Fin 3 → ℝ) : Option ℝ :=
  jsMaxList ((gridList h w (grayscale img)).map some)

/-- Mask center row, `Math.floor(height / 2)` (line 311). -/
def centerY (h : ℕ) : ℕ := h / 2

/-- Mask center column, `Math.floor(width / 2)` (line 312). -/
def centerX (w : ℕ) : ℕ := w / 2

/-- Mask radius, `Math.min(height, width) / 3` (line 313, real division). -/
noncomputable def radius (h w : ℕ) : ℝ := (min h w : ℕ) / 3

/-- Euclidean distance of a coordinate to the mask center (line 317). -/
noncomputable def centerDist (h w y x : ℕ) : ℝ :=
  Real.sqrt (((y : ℝ) - (centerY h : ℕ)) ^ 2 + ((x : ℝ) - (centerX w : ℕ)) ^ 2)

/-- Center-mask entry (lines 318-319):
`Math.max(0, 1 - distance / radius) * confidenceBoost`. -/
noncomputable def centerMask (h w : ℕ) (boost : ℝ) (y x : ℕ) : ℝ :=
  max 0 (1 - centerDist h w y x / radius h w) * boost

/-- Raw heatmap value (lines 301-327): grayscale divided by its global
maximum, multiplied by the center mask.  The division is the code's
`tf.div(grayscale, tf.max(grayscale))` with no zero guard, so a zero
maximum makes every entry non-finite. -/
noncomputable def heat (h w : ℕ) (img : ℕ → ℕ → Fin 3 → ℝ) (boost : ℝ)
    (y x : ℕ) : Option ℝ :=
  match grayscaleMax h w img with
  | none => none
  | some g => (jsDiv (grayscale img y x) g).map fun t => t * centerMask h w boost y x

/-- `Math.min(...dataArray)` over the raw heatmap (line 332). -/
noncomputable def heatMin (h w : ℕ) (img : ℕ → ℕ → Fin 3 → ℝ) (boost : ℝ) :
    Option ℝ :=
  jsMinList (gridList h w (heat h w img boost))

/-- `Math.max(...dataArray)` over the raw heatmap (line 333). -/
noncomputable def heatMax (h w : ℕ) (img : ℕ → ℕ → Fin 3 → ℝ) (boost : ℝ) :
    Option ℝ :=
  jsMaxList (gridList h w (heat h w img boost))

/-- `range = max - min` (line 340). -/
noncomputable def heatRange (h w : ℕ) (img : ℕ → ℕ → Fin 3 → ℝ) (boost : ℝ) :
    Option ℝ :=
  optSub (heatMax h w img boost) (heatMin h w img boost)

/-- Low source index of `tf.image.resizeBilinear` with the default
`alignCorners = false`: `floor(i * nIn / nOut)`. -/
def srcLow (nIn nOut i : ℕ) : ℕ := i * nIn / nOut

/-- High source index: `min(nIn - 1, ceil(i * nIn / nOut))`. -/
def srcHigh (nIn nOut i : ℕ) : ℕ := min (nIn - 1) ((i * nIn + nOut - 1) / nOut)

/-- Fractional part of the source coordinate. -/
noncomputable def srcFrac (nIn nOut i : ℕ) : ℝ :=
  (i * nIn : ℕ) / (nOut : ℝ) - (srcLow nIn nOut i : ℕ)

/-- Bilinear resampling of a grid with possibly non-finite entries
(`tf.image.resizeBilinear`, lines 268 and 355, default `alignCorners =
false`): the result is non-finite whenever one of the four sampled source
texels is (IEEE: `NaN` times any weight stays `NaN`). -/
noncomputable def resizeBilinearO (hIn wIn hOut wOut : ℕ)
    (f : ℕ → ℕ → Option ℝ) (y x : ℕ) : Option ℝ :=
  match f (srcLow hIn hOut y) (srcLow wIn wOut x),
      f (srcLow hIn hOut y) (srcHigh wIn wOut x),
      f (srcHigh hIn hOut y) (srcLow wIn wOut x),
      f (srcHigh hIn hOut y) (srcHigh wIn wOut x) with
  | some tl, some tr, some bl, some br =>
      some ((tl + (tr - tl) * srcFrac wIn wOut x) +
        ((bl + (br - bl) * srcFrac wIn wOut x) -
          (tl + (tr - tl) * srcFrac wIn wOut x)) * srcFrac hIn hOut y)
  | _, _, _, _ => none

/-- Bilinear resampling of an everywhere-finite grid, used by the
preprocessor. -/
noncomputable def resizeBilinearR (hIn wIn hOut wOut : ℕ)
    (f : ℕ → ℕ → ℝ) (y x : ℕ) : ℝ :=
  let tl := f (srcLow hIn hOut y) (srcLow wIn wOut x)
  let tr := f (srcLow hIn hOut y) (srcHigh wIn wOut x)
  let bl := f (srcHigh hIn hOut y) (srcLow wIn wOut x)
  let br := f (srcHigh hIn hOut y) (srcHigh wIn wOut x)
  let top := tl + (tr - tl) * srcFrac wIn wOut x
  let bot := bl + (br - bl) * srcFrac wIn wOut x
  top + (bot - top) * srcFrac hIn hOut y

/-- Fallback pattern written when the raw heatmap has zero range
(lines 344-351): a linear falloff from the fixed center `(112, 112)` with
the fixed pixel radius `80`. -/
noncomputable def fallbackMap (y x : ℕ) : ℝ :=
  max 0 (1 - Real.sqrt (((y : ℝ) - 112) ^ 2 + ((x : ℝ) - 112) ^ 2) / 80)

/-- Normalized heatmap produced by `generateGradCAM` (lines 339-363): if
`range === 0` the fallback pattern is substituted, otherwise the raw
heatmap is resized to `224 × 224` and normalized as
`(value - min) / range`.  The height and width are read off the input
tensor's shape (lines 307-308); no shape validation is performed. -/
noncomputable def normalizedHeatmap (h w : ℕ) (img : ℕ → ℕ → Fin 3 → ℝ)
    (probs : List ℚ) (y x : ℕ) : Option ℝ :=
  let boost : ℝ := ((confidenceBoost probs : ℚ) : ℝ)
  if heatRange h w img boost = some 0 then some (fallbackMap y x)
  else
    optDiv
      (optSub (resizeBilinearO h w 224 224 (heat h w img boost) y x)
        (heatMin h w img boost))
      (heatRange h w img boost)

/-- Preprocessor `preprocessImage` (lines 262-276): bilinear resize of each
channel to `224 × 224`, then division by `255` (the batch dimension, added
at line 274 and dropped again at line 286, is left implicit). -/
noncomputable def preprocessImage (h w : ℕ) (img : ℕ → ℕ → Fin 3 → ℝ)
    (y x : ℕ) (c : Fin 3) : ℝ :=
  resizeBilinearR h w 224 224 (fun yy xx => img yy xx c) y x / 255

/-- `tf.clipByValue` as used by the colorizer. -/
noncomputable def tfClip (x lo hi : ℝ) : ℝ := min hi (max lo x)

/-- Red transfer channel (line 371): `clip((v - 0.3) * 2.5, 0, 1)`. -/
noncomputable def colorR (v : ℝ) : ℝ := tfClip ((v - 0.3) * 2.5) 0 1

/-- Green transfer channel (line 374): `clip(v * 1.5, 0, 1)`. -/
noncomputable def colorG (v : ℝ) : ℝ := tfClip (v * 1.5) 0 1

/-- Blue transfer channel (line 377): `clip(1 - v * 2, 0, 1)`. -/
noncomputable def colorB (v : ℝ) : ℝ := tfClip (1 - v * 2) 0 1

/-- `Math.round` (round half toward positive infinity). -/
noncomputable def jsRound (x : ℝ) : ℤ := ⌊x + 1 / 2⌋

/-- Final 8-bit red value (line 395):
`Math.round(Math.min(255, Math.max(0, colorArray[3i] * 1.2)))` where
`colorArray` holds the transfer channels already multiplied by 255. -/
noncomputable def red8 (v : ℝ) : ℤ :=
  jsRound (min 255 (max 0 (colorR v * 255 * 1.2)))

/-- Final 8-bit green value (line 396), no post-gain. -/
noncomputable def green8 (v : ℝ) : ℤ :=
  jsRound (min 255 (max 0 (colorG v * 255)))

/-- Final 8-bit blue value (line 397), post-gain `0.8`. -/
noncomputable def blue8 (v : ℝ) : ℤ :=
  jsRound (min 255 (max 0 (colorB v * 255 * 0.8)))

/-- Alpha channel written for every pixel (line 402): the constant `200`. -/
def alphaChannel : ℤ := 200

/-- Clamp as the spec words it (for refinement comparison only):
`clamp(x, lo, hi)`. -/
def specClamp (x lo hi : ℚ) : ℚ := min hi (max lo x)

/-- Mask weight as the spec words it (for refinement comparison only):
Gaussian falloff `exp(-distance^2 / (2*(r/2)^2)) * boost`. -/
noncomputable def specGaussianWeight (h w : ℕ) (boost : ℝ) (y x : ℕ) : ℝ :=
  Real.exp (-(centerDist h w y x ^ 2) / (2 * (radius h w / 2) ^ 2)) * boost

/-- Red transfer as the spec words it: `clamp((v - 0.2) * 2.0, 0, 1)`. -/
noncomputable def specR (v : ℝ) : ℝ := min 1 (max 0 ((v - 0.2) * 2.0))

/-- Green transfer as the spec words it: `clamp(v * 1.8, 0, 1)`. -/
noncomputable def specG (v : ℝ) : ℝ := min 1 (max 0 (v * 1.8))

/-- Blue transfer as the spec words it: `clamp(1.2 - v * 2.0, 0, 1)`. -/
noncomputable def specB (v : ℝ) : ℝ := min 1 (max 0 (1.2 - v * 2.0))

/-- Spec 8-bit red: multiply by 255, post-gain 1.3, clamp to [0,255]. -/
noncomputable def specRed8 (v : ℝ) : ℝ := min 255 (max 0 (specR v * 255 * 1.3))

/-- Spec 8-bit green: multiply by 255, post-gain 1.1, clamp to [0,255]. -/
noncomputable def specGreen8 (v : ℝ) : ℝ := min 255 (max 0 (specG v * 255 * 1.1))

/-- Spec 8-bit blue: multiply by 255, post-gain 0.9, clamp to [0,255]. -/
noncomputable def specBlue8 (v : ℝ) : ℝ := min 255 (max 0 (specB v * 255 * 0.9))

/-- Dynamic alpha as the spec words it:
`round(200 * min(1, (r+g+b)/400))` over the 8-bit channel values. -/
noncomputable def specAlpha (v : ℝ) : ℤ :=
  jsRound (200 * min 1 ((specRed8 v + specGreen8 v + specBlue8 v) / 400))


/-! Helper lemmas about the embedded pipeline. -/

lemma mem_gridList {α : Type*} {h w : ℕ} {f : ℕ → ℕ → α} {a : α} :
    a ∈ gridList h w f ↔ ∃ y, y < h ∧ ∃ x, x < w ∧ a = f y x := by
  simp only [gridList, List.mem_flatMap, List.mem_map, List.mem_range]
  constructor
  · rintro ⟨y, hy, x, hx, rfl⟩
    exact ⟨y, hy, x, hx, rfl⟩
  · rintro ⟨y, hy, x, hx, rfl⟩
    exact ⟨y, hy, x, hx, rfl⟩

lemma gridList_mem_self {α : Type*} {h w : ℕ} (f : ℕ → ℕ → α) {y x : ℕ}
    (hy : y < h) (hx : x < w) : f y x ∈ gridList h w f :=
  mem_gridList.mpr ⟨y, hy, x, hx, rfl⟩

lemma foldl_jsMin2_eq {α : Type*} [LinearOrder α] (xs : List (Option α))
    (acc : Option α) (m : α)
    (hmem : acc = some m ∨ some m ∈ xs)
    (hlb : ∀ v ∈ acc :: xs, ∃ r, v = some r ∧ m ≤ r) :
    xs.foldl jsMin2 acc = some m := by
  induction xs generalizing acc with
  | nil =>
      rcases hmem with h | h
      · simpa using h
      · simp at h
  | cons x xs ih =>
      obtain ⟨a, ha, hma⟩ := hlb acc (by simp)
      obtain ⟨b, hb, hmb⟩ := hlb x (by simp)
      subst ha; subst hb
      have hstep : jsMin2 (some a) (some b) = some (min a b) := rfl
      simp only [List.foldl_cons, hstep]
      rcases hmem with h | h
      · have haa : a = m := by injection h
        subst haa
        refine ih (some (min a b)) (Or.inl ?_) ?_
        · simp [min_eq_left hmb]
        · intro v hv
          rcases List.mem_cons.mp hv with rfl | hv
          · exact ⟨min a b, rfl, le_min le_rfl hmb⟩
          · exact hlb v (by simp [hv])
      · rcases List.mem_cons.mp h with h | h
        · have hbb : b = m := by injection h.symm
          subst hbb
          refine ih (some (min a b)) (Or.inl ?_) ?_
          · simp [min_eq_right hma]
          · intro v hv
            rcases List.mem_cons.mp hv with rfl | hv
            · exact ⟨min a b, rfl, le_min hma le_rfl⟩
            · exact hlb v (by simp [hv])
        · refine ih (some (min a b)) (Or.inr h) ?_
          intro v hv
          rcases List.mem_cons.mp hv with rfl | hv
          · exact ⟨min a b, rfl, le_min hma hmb⟩
          · exact hlb v (by simp [hv])

lemma foldl_jsMax2_eq {α : Type*} [LinearOrder α] (xs : List (Option α))
    (acc : Option α) (m : α)
    (hmem : acc = some m ∨ some m ∈ xs)
    (hub : ∀ v ∈ acc :: xs, ∃ r, v = some r ∧ r ≤ m) :
    xs.foldl jsMax2 acc = some m := by
  induction xs generalizing acc with
  | nil =>
      rcases hmem with h | h
      · simpa using h
      · simp at h
  | cons x xs ih =>
      obtain ⟨a, ha, hma⟩ := hub acc (by simp)
      obtain ⟨b, hb, hmb⟩ := hub x (by simp)
      subst ha; subst hb
      have hstep : jsMax2 (some a) (some b) = some (max a b) := rfl
      simp only [List.foldl_cons, hstep]
      rcases hmem with h | h
      · have haa : a = m := by injection h
        subst haa
        refine ih (some (max a b)) (Or.inl ?_) ?_
        · simp [max_eq_left hmb]
        · intro v hv
          rcases List.mem_cons.mp hv with rfl | hv
          · exact ⟨max a b, rfl, max_le le_rfl hmb⟩
          · exact hub v (by simp [hv])
      · rcases List.mem_cons.mp h with h | h
        · have hbb : b = m := by injection h.symm
          subst hbb
          refine ih (some (max a b)) (Or.inl ?_) ?_
          · simp [max_eq_right hma]
          · intro v hv
            rcases List.mem_cons.mp hv with rfl | hv
            · exact ⟨max a b, rfl, max_le hma le_rfl⟩
            · exact hub v (by simp [hv])
        · refine ih (some (max a b)) (Or.inr h) ?_
          intro v hv
          rcases List.mem_cons.mp hv with rfl | hv
          · exact ⟨max a b, rfl, max_le hma hmb⟩
          · exact hub v (by simp [hv])

lemma jsMinList_eq {α : Type*} [LinearOrder α] {l : List (Option α)} {m : α}
    (hmem : some m ∈ l)
    (hlb : ∀ v ∈ l, ∃ r, v = some r ∧ m ≤ r) :
    jsMinList l = some m := by
  cases l with
  | nil => simp at hmem
  | cons x xs =>
      show xs.foldl jsMin2 x = some m
      rcases List.mem_cons.mp hmem with h | h
      · exact foldl_jsMin2_eq xs x m (Or.inl h.symm) hlb
      · exact foldl_jsMin2_eq xs x m (Or.inr h) hlb

lemma jsMaxList_eq {α : Type*} [LinearOrder α] {l : List (Option α)} {m : α}
    (hmem : some m ∈ l)
    (hub : ∀ v ∈ l, ∃ r, v = some r ∧ r ≤ m) :
    jsMaxList l = some m := by
  cases l with
  | nil => simp at hmem
  | cons x xs =>
      show xs.foldl jsMax2 x = some m
      rcases List.mem_cons.mp hmem with h | h
      · exact foldl_jsMax2_eq xs x m (Or.inl h.symm) hub
      · exact foldl_jsMax2_eq xs x m (Or.inr h) hub

lemma foldl_jsMin2_none {α : Type*} [LinearOrder α] (xs : List (Option α))
    (acc : Option α) (h : acc = none ∨ none ∈ xs) :
    xs.foldl jsMin2 acc = none := by
  induction xs generalizing acc with
  | nil =>
      rcases h with h | h
      · simpa using h
      · simp at h
  | cons x xs ih =>
      simp only [List.foldl_cons]
      rcases h with h | h
      · subst h
        exact ih (jsMin2 none x) (Or.inl (by cases x <;> rfl))
      · rcases List.mem_cons.mp h with h | h
        · subst h
          exact ih (jsMin2 acc none) (Or.inl (by cases acc <;> rfl))
        · exact ih _ (Or.inr h)

lemma jsMinList_eq_none {α : Type*} [LinearOrder α] {l : List (Option α)}
    (hmem : none ∈ l) : jsMinList l = none := by
  cases l with
  | nil => rfl
  | cons x xs =>
      show xs.foldl jsMin2 x = none
      rcases List.mem_cons.mp hmem with h | h
      · exact foldl_jsMin2_none xs x (Or.inl h.symm)
      · exact foldl_jsMin2_none xs x (Or.inr h)


lemma confidenceBoost_lb (ps : List ℚ) : (0.3 : ℚ) ≤ confidenceBoost ps := by
  unfold confidenceBoost
  cases jsMaxList (ps.map some) with
  | none => exact le_refl _
  | some m => exact le_max_left _ _

lemma confidenceBoost_real_lb (ps : List ℚ) :
    (0.3 : ℝ) ≤ ((confidenceBoost ps : ℚ) : ℝ) := by
  have h := confidenceBoost_lb ps
  have : (((0.3 : ℚ)) : ℝ) ≤ ((confidenceBoost ps : ℚ) : ℝ) := by
    exact_mod_cast h
  calc (0.3 : ℝ) = (((0.3 : ℚ)) : ℝ) := by norm_num
    _ ≤ _ := this

lemma confidenceBoost_real_pos (ps : List ℚ) :
    (0 : ℝ) < ((confidenceBoost ps : ℚ) : ℝ) :=
  lt_of_lt_of_le (by norm_num) (confidenceBoost_real_lb ps)

lemma grayscale_const (c : ℝ) (y x : ℕ) :
    grayscale (fun _ _ _ => c) y x = c := by
  unfold grayscale; ring

lemma grayscaleMax_const {h w : ℕ} (hh : 0 < h) (hw : 0 < w) (c : ℝ) :
    grayscaleMax h w (fun _ _ _ => c) = some c := by
  unfold grayscaleMax
  refine jsMaxList_eq ?_ ?_
  · refine List.mem_map.mpr ⟨c, ?_, rfl⟩
    have := gridList_mem_self
      (grayscale fun _ _ _ => c) hh hw
    simpa [grayscale_const] using this
  · intro v hv
    obtain ⟨a, ha, rfl⟩ := List.mem_map.mp hv
    obtain ⟨y, _, x, _, rfl⟩ := mem_gridList.mp ha
    exact ⟨_, rfl, by rw [grayscale_const]⟩

lemma radius_pos {h w : ℕ} (hh : 0 < h) (hw : 0 < w) : 0 < radius h w := by
  unfold radius
  have : 0 < min h w := lt_min hh hw
  positivity

lemma centerDist_nonneg (h w y x : ℕ) : 0 ≤ centerDist h w y x :=
  Real.sqrt_nonneg _

lemma centerDist_center (h w : ℕ) :
    centerDist h w (centerY h) (centerX w) = 0 := by
  unfold centerDist
  simp [Real.sqrt_zero]

lemma centerDist_corner_ge {h w : ℕ} (hh : 2 ≤ h) (hw : 2 ≤ w) :
    radius h w ≤ centerDist h w 0 0 := by
  have hcy : ((centerY h : ℕ) : ℝ) ≤ centerDist h w 0 0 := by
    unfold centerDist
    simp only [Nat.cast_zero]
    have h1 : ((centerY h : ℕ) : ℝ) ^ 2 ≤
        ((0 : ℝ) - (centerY h : ℕ)) ^ 2 + ((0 : ℝ) - (centerX w : ℕ)) ^ 2 := by
      have : ((0 : ℝ) - (centerY h : ℕ)) ^ 2 = ((centerY h : ℕ) : ℝ) ^ 2 := by ring
      nlinarith [sq_nonneg ((0 : ℝ) - (centerX w : ℕ))]
    calc ((centerY h : ℕ) : ℝ) = Real.sqrt (((centerY h : ℕ) : ℝ) ^ 2) :=
          (Real.sqrt_sq (by positivity)).symm
      _ ≤ _ := Real.sqrt_le_sqrt h1
  have hcx : ((centerX w : ℕ) : ℝ) ≤ centerDist h w 0 0 := by
    unfold centerDist
    simp only [Nat.cast_zero]
    have h1 : ((centerX w : ℕ) : ℝ) ^ 2 ≤
        ((0 : ℝ) - (centerY h : ℕ)) ^ 2 + ((0 : ℝ) - (centerX w : ℕ)) ^ 2 := by
      have : ((0 : ℝ) - (centerX w : ℕ)) ^ 2 = ((centerX w : ℕ) : ℝ) ^ 2 := by ring
      nlinarith [sq_nonneg ((0 : ℝ) - (centerY h : ℕ))]
    calc ((centerX w : ℕ) : ℝ) = Real.sqrt (((centerX w : ℕ) : ℝ) ^ 2) :=
          (Real.sqrt_sq (by positivity)).symm
      _ ≤ _ := Real.sqrt_le_sqrt h1
  rcases le_total h w with hle | hle
  · have hmin : min h w = h := min_eq_left hle
    have hnat : h ≤ 3 * centerY h := by
      unfold centerY; omega
    have : radius h w ≤ ((centerY h : ℕ) : ℝ) := by
      unfold radius
      rw [hmin]
      rw [div_le_iff₀ (by norm_num)]
      calc ((h : ℕ) : ℝ) ≤ ((3 * centerY h : ℕ) : ℝ) := by exact_mod_cast hnat
        _ = ((centerY h : ℕ) : ℝ) * 3 := by push_cast; ring
    exact this.trans hcy
  · have hmin : min h w = w := min_eq_right hle
    have hnat : w ≤ 3 * centerX w := by
      unfold centerX; omega
    have : radius h w ≤ ((centerX w : ℕ) : ℝ) := by
      unfold radius
      rw [hmin]
      rw [div_le_iff₀ (by norm_num)]
      calc ((w : ℕ) : ℝ) ≤ ((3 * centerX w : ℕ) : ℝ) := by exact_mod_cast hnat
        _ = ((centerX w : ℕ) : ℝ) * 3 := by push_cast; ring
    exact this.trans hcx

lemma centerMask_nonneg {h w : ℕ} {boost : ℝ} (hb : 0 ≤ boost) (y x : ℕ) :
    0 ≤ centerMask h w boost y x :=
  mul_nonneg (le_max_left _ _) hb

lemma centerMask_le {h w : ℕ} {boost : ℝ} (hb : 0 ≤ boost) (y x : ℕ) :
    centerMask h w boost y x ≤ boost := by
  unfold centerMask
  refine mul_le_of_le_one_left hb ?_
  refine max_le (by norm_num) ?_
  have : 0 ≤ centerDist h w y x / radius h w := by
    apply div_nonneg (centerDist_nonneg h w y x)
    unfold radius; positivity
  linarith

lemma centerMask_center (h w : ℕ) (boost : ℝ) :
    centerMask h w boost (centerY h) (centerX w) = boost := by
  unfold centerMask
  rw [centerDist_center]
  norm_num

lemma centerMask_corner {h w : ℕ} (hh : 2 ≤ h) (hw : 2 ≤ w) (boost : ℝ) :
    centerMask h w boost 0 0 = 0 := by
  unfold centerMask
  have hr : 0 < radius h w := radius_pos (by omega) (by omega)
  have hd : radius h w ≤ centerDist h w 0 0 := centerDist_corner_ge hh hw
  have h1 : 1 ≤ centerDist h w 0 0 / radius h w := (one_le_div hr).mpr hd
  have : max 0 (1 - centerDist h w 0 0 / radius h w) = 0 :=
    max_eq_left (by linarith)
  rw [this, zero_mul]

lemma heat_const {h w : ℕ} (hh : 0 < h) (hw : 0 < w) {c : ℝ} (hc : c ≠ 0)
    (boost : ℝ) (y x : ℕ) :
    heat h w (fun _ _ _ => c) boost y x = some (centerMask h w boost y x) := by
  simp [heat, grayscaleMax_const hh hw, grayscale_const, jsDiv, hc, div_self hc]

lemma heatMin_const {h w : ℕ} (hh : 2 ≤ h) (hw : 2 ≤ w) {c : ℝ} (hc : c ≠ 0)
    {boost : ℝ} (hb : 0 ≤ boost) :
    heatMin h w (fun _ _ _ => c) boost = some 0 := by
  unfold heatMin
  have h0 : 0 < h := by omega
  have w0 : 0 < w := by omega
  refine jsMinList_eq ?_ ?_
  · have := gridList_mem_self
      (heat h w (fun _ _ _ => c) boost) h0 w0
    rw [heat_const h0 w0 hc boost 0 0, centerMask_corner hh hw] at this
    exact this
  · intro v hv
    obtain ⟨y, _, x, _, rfl⟩ := mem_gridList.mp hv
    rw [heat_const h0 w0 hc boost y x]
    exact ⟨_, rfl, centerMask_nonneg hb y x⟩

lemma heatMax_const {h w : ℕ} (hh : 2 ≤ h) (hw : 2 ≤ w) {c : ℝ} (hc : c ≠ 0)
    {boost : ℝ} (hb : 0 ≤ boost) :
    heatMax h w (fun _ _ _ => c) boost = some boost := by
  unfold heatMax
  have h0 : 0 < h := by omega
  have w0 : 0 < w := by omega
  refine jsMaxList_eq ?_ ?_
  · have hcy : centerY h < h := Nat.div_lt_self h0 (by norm_num)
    have hcx : centerX w < w := Nat.div_lt_self w0 (by norm_num)
    have := gridList_mem_self
      (heat h w (fun _ _ _ => c) boost) hcy hcx
    rw [heat_const h0 w0 hc boost _ _, centerMask_center] at this
    exact this
  · intro v hv
    obtain ⟨y, _, x, _, rfl⟩ := mem_gridList.mp hv
    rw [heat_const h0 w0 hc boost y x]
    exact ⟨_, rfl, centerMask_le hb y x⟩

lemma heatRange_const {h w : ℕ} (hh : 2 ≤ h) (hw : 2 ≤ w) {c : ℝ} (hc : c ≠ 0)
    {boost : ℝ} (hb : 0 ≤ boost) :
    heatRange h w (fun _ _ _ => c) boost = some boost := by
  unfold heatRange
  rw [heatMax_const hh hw hc hb, heatMin_const hh hw hc hb]
  simp [optSub]

lemma srcLow_id {n : ℕ} (hn : 0 < n) (i : ℕ) : srcLow n n i = i := by
  unfold srcLow
  exact Nat.mul_div_cancel i hn

lemma srcHigh_id {n : ℕ} {i : ℕ} (hi : i < n) : srcHigh n n i = i := by
  unfold srcHigh
  have hn : 0 < n := by omega
  have h1 : i * n + n - 1 = (n - 1) + i * n := by omega
  rw [h1, Nat.add_mul_div_right _ _ hn, Nat.div_eq_of_lt (by omega)]
  omega

lemma srcFrac_id {n : ℕ} (hn : 0 < n) (i : ℕ) : srcFrac n n i = 0 := by
  unfold srcFrac
  rw [srcLow_id hn]
  push_cast
  field_simp

lemma resizeBilinearO_exact {hIn wIn hOut wOut : ℕ} (f : ℕ → ℕ → Option ℝ)
    {y x j k : ℕ}
    (h1 : srcLow hIn hOut y = j) (h2 : srcHigh hIn hOut y = j)
    (h3 : srcFrac hIn hOut y = 0)
    (h4 : srcLow wIn wOut x = k) (h5 : srcHigh wIn wOut x = k)
    (h6 : srcFrac wIn wOut x = 0) :
    resizeBilinearO hIn wIn hOut wOut f y x = f j k := by
  unfold resizeBilinearO
  rw [h1, h2, h3, h4, h5, h6]
  cases f j k with
  | none => rfl
  | some v => norm_num

lemma resizeBilinearO_id {h w : ℕ} (hh : 0 < h) (hw : 0 < w)
    (f : ℕ → ℕ → Option ℝ) {y x : ℕ} (hy : y < h) (hx : x < w) :
    resizeBilinearO h w h w f y x = f y x :=
  resizeBilinearO_exact f (srcLow_id hh y) (srcHigh_id hy) (srcFrac_id hh y)
    (srcLow_id hw x) (srcHigh_id hx) (srcFrac_id hw x)

lemma maskFactor_center (h w : ℕ) :
    max 0 (1 - centerDist h w (centerY h) (centerX w) / radius h w) = 1 := by
  rw [centerDist_center]
  norm_num

lemma maskFactor_corner {h w : ℕ} (hh : 2 ≤ h) (hw : 2 ≤ w) :
    max 0 (1 - centerDist h w 0 0 / radius h w) = 0 := by
  have h1 := centerMask_corner hh hw 1
  unfold centerMask at h1
  simpa using h1

lemma normalizedHeatmap_flat {c : ℝ} (hc : 0 < c) (probs : List ℚ) {y x : ℕ}
    (hy : y < 224) (hx : x < 224) :
    normalizedHeatmap 224 224 (fun _ _ _ => c) probs y x =
      some (max 0 (1 - centerDist 224 224 y x / radius 224 224)) := by
  have hB0 : (0 : ℝ) < ((confidenceBoost probs : ℚ) : ℝ) :=
    confidenceBoost_real_pos probs
  have hBne : ((confidenceBoost probs : ℚ) : ℝ) ≠ 0 := ne_of_gt hB0
  have hcne : c ≠ 0 := ne_of_gt hc
  have h2 : (2 : ℕ) ≤ 224 := by norm_num
  have hrange : heatRange 224 224 (fun _ _ _ => c)
      ((confidenceBoost probs : ℚ) : ℝ) =
        some ((confidenceBoost probs : ℚ) : ℝ) :=
    heatRange_const h2 h2 hcne hB0.le
  have hmin : heatMin 224 224 (fun _ _ _ => c)
      ((confidenceBoost probs : ℚ) : ℝ) = some 0 :=
    heatMin_const h2 h2 hcne hB0.le
  have hres : resizeBilinearO 224 224 224 224
      (heat 224 224 (fun _ _ _ => c) ((confidenceBoost probs : ℚ) : ℝ)) y x =
        heat 224 224 (fun _ _ _ => c) ((confidenceBoost probs : ℚ) : ℝ) y x :=
    resizeBilinearO_id (by norm_num) (by norm_num) _ hy hx
  simp only [normalizedHeatmap]
  rw [if_neg (by rw [hrange]; simp [hBne])]
  rw [hres, heat_const (by norm_num) (by norm_num) hcne _ y x, hmin, hrange]
  simp only [optSub, sub_zero, optDiv]
  unfold jsDiv
  rw [if_neg hBne]
  unfold centerMask
  rw [mul_div_cancel_right₀ _ hBne]

lemma resizeBilinearR_const (hIn wIn hOut wOut : ℕ) (c : ℝ) (y x : ℕ) :
    resizeBilinearR hIn wIn hOut wOut (fun _ _ => c) y x = c := by
  simp only [resizeBilinearR]
  ring

lemma preprocessImage_flat (h w : ℕ) (c : ℝ) :
    preprocessImage h w (fun _ _ _ => c) = fun _ _ _ => c / 255 := by
  funext y x ch
  unfold preprocessImage
  rw [resizeBilinearR_const]

lemma centerDist_224_center : centerDist 224 224 112 112 = 0 := by
  show centerDist 224 224 (centerY 224) (centerX 224) = 0
  exact centerDist_center 224 224

lemma radius_224 : radius 224 224 = 224 / 3 := by
  unfold radius
  norm_num

lemma centerDist_224_50_112 : centerDist 224 224 50 112 = 62 := by
  unfold centerDist centerY centerX
  norm_num
  rw [show (3844 : ℝ) = 62 ^ 2 by norm_num]
  exact Real.sqrt_sq (by norm_num)

lemma fallbackMap_50_112 : fallbackMap 50 112 = 9 / 40 := by
  unfold fallbackMap
  have h1 : (((50 : ℕ) : ℝ) - 112) ^ 2 + (((112 : ℕ) : ℝ) - 112) ^ 2 = 62 ^ 2 := by
    norm_num
  rw [h1, Real.sqrt_sq (by norm_num)]
  norm_num

lemma normalizedHeatmap_flat100 {c : ℝ} (hc : 0 < c) (probs : List ℚ) :
    normalizedHeatmap 100 100 (fun _ _ _ => c) probs 112 112 = some 1 ∧
    normalizedHeatmap 100 100 (fun _ _ _ => c) probs 0 0 = some 0 := by
  have hB0 : (0 : ℝ) < ((confidenceBoost probs : ℚ) : ℝ) :=
    confidenceBoost_real_pos probs
  have hBne : ((confidenceBoost probs : ℚ) : ℝ) ≠ 0 := ne_of_gt hB0
  have hcne : c ≠ 0 := ne_of_gt hc
  have h2 : (2 : ℕ) ≤ 100 := by norm_num
  have hrange : heatRange 100 100 (fun _ _ _ => c)
      ((confidenceBoost probs : ℚ) : ℝ) =
        some ((confidenceBoost probs : ℚ) : ℝ) :=
    heatRange_const h2 h2 hcne hB0.le
  have hmin : heatMin 100 100 (fun _ _ _ => c)
      ((confidenceBoost probs : ℚ) : ℝ) = some 0 :=
    heatMin_const h2 h2 hcne hB0.le
  have hresC : resizeBilinearO 100 100 224 224
      (heat 100 100 (fun _ _ _ => c) ((confidenceBoost probs : ℚ) : ℝ))
        112 112 =
      heat 100 100 (fun _ _ _ => c) ((confidenceBoost probs : ℚ) : ℝ) 50 50 :=
    resizeBilinearO_exact _
      (by norm_num [srcLow]) (by norm_num [srcHigh])
      (by norm_num [srcFrac, srcLow])
      (by norm_num [srcLow]) (by norm_num [srcHigh])
      (by norm_num [srcFrac, srcLow])
  have hres0 : resizeBilinearO 100 100 224 224
      (heat 100 100 (fun _ _ _ => c) ((confidenceBoost probs : ℚ) : ℝ)) 0 0 =
      heat 100 100 (fun _ _ _ => c) ((confidenceBoost probs : ℚ) : ℝ) 0 0 :=
    resizeBilinearO_exact _
      (by norm_num [srcLow]) (by norm_num [srcHigh])
      (by norm_num [srcFrac, srcLow])
      (by norm_num [srcLow]) (by norm_num [srcHigh])
      (by norm_num [srcFrac, srcLow])
  have hcenter : heat 100 100 (fun _ _ _ => c)
      ((confidenceBoost probs : ℚ) : ℝ) 50 50 =
        some ((confidenceBoost probs : ℚ) : ℝ) := by
    rw [heat_const (by norm_num) (by norm_num) hcne _ 50 50]
    exact congrArg some (centerMask_center 100 100 _)
  constructor
  · simp only [normalizedHeatmap]
    rw [if_neg (by rw [hrange]; simp [hBne])]
    rw [hresC, hcenter, hmin, hrange]
    simp only [optSub, sub_zero, optDiv]
    unfold jsDiv
    rw [if_neg hBne]
    rw [div_self hBne]
  · simp only [normalizedHeatmap]
    rw [if_neg (by rw [hrange]; simp [hBne])]
    rw [hres0, heat_const (by norm_num) (by norm_num) hcne _ 0 0,
      centerMask_corner h2 h2, hmin, hrange]
    simp only [optSub, sub_zero, optDiv]
    unfold jsDiv
    rw [if_neg hBne]
    rw [zero_div]

/-! Claim theorems. -/

/-- Claim C3, counterexample: a flat half-gray image with probability vector
`[0.9]` does NOT yield the fallback radial map.  At coordinate `(50, 112)`
the produced value is `19/112` while the claimed fallback value
(`max(0, 1 - distance/80)` at 224 resolution) is `9/40`. -/
theorem C3_counterexample :
    normalizedHeatmap 224 224 (fun _ _ _ => (1 / 2 : ℝ)) [9 / 10] 50 112 =
      some (19 / 112) ∧
    fallbackMap 50 112 = 9 / 40 ∧ ((19 : ℝ) / 112) ≠ 9 / 40 := by
  refine ⟨?_, fallbackMap_50_112, by norm_num⟩
  rw [normalizedHeatmap_flat (by norm_num) _ (by norm_num) (by norm_num)]
  rw [centerDist_224_50_112, radius_224]
  norm_num

/-- Claim C3, amended: for every flat-color `224 × 224` input with positive
channel value and every probability vector, the synthesizer outputs the
normalized center-mask value `max(0, 1 - distance/(min(h,w)/3))` — a linear
falloff with radius `224/3`, not the `80`-pixel fallback pattern.  The
output is independent of the probability vector (the boost factor cancels
in the final normalization). -/
theorem C3_flat_linear_falloff {c : ℝ} (hc : 0 < c) (probs : List ℚ)
    {y x : ℕ} (hy : y < 224) (hx : x < 224) :
    normalizedHeatmap 224 224 (fun _ _ _ => c) probs y x =
      some (max 0 (1 - centerDist 224 224 y x / radius 224 224)) :=
  normalizedHeatmap_flat hc probs hy hx

/-- Claim C3, witness for the amended theorem at a concrete input. -/
theorem C3_witness :
    normalizedHeatmap 224 224 (fun _ _ _ => (1 / 2 : ℝ)) [] 0 0 =
      some (max 0 (1 - centerDist 224 224 0 0 / radius 224 224)) :=
  C3_flat_linear_falloff (by norm_num) [] (by norm_num) (by norm_num)

/-- Claim C5, counterexample: with an EMPTY probability vector the
synthesizer does not fail; it produces a saliency map (here shown to carry
the finite value `1` at the center for a flat half-gray image). -/
theorem C5_counterexample :
    normalizedHeatmap 224 224 (fun _ _ _ => (1 / 2 : ℝ)) [] 112 112 =
      some 1 := by
  rw [normalizedHeatmap_flat (by norm_num) [] (by norm_num) (by norm_num)]
  rw [centerDist_224_center]
  norm_num

/-- Claim C5, amended: an empty probability vector is accepted, not
rejected: `Math.max()` of an empty spread is `-Infinity`, so the boost
floors at `0.3` and synthesis proceeds exactly as for any vector whose
boost is `0.3` (such as `[0.15]`). -/
theorem C5_empty_probabilities_accepted :
    confidenceBoost [] = 0.3 ∧
    ∀ (h w : ℕ) (img : ℕ → ℕ → Fin 3 → ℝ) (y x : ℕ),
      normalizedHeatmap h w img [] y x =
        normalizedHeatmap h w img [0.15] y x := by
  have hb : confidenceBoost [] = confidenceBoost [0.15] := by
    norm_num [confidenceBoost, jsMaxList, jsMax2, max_def]
  refine ⟨rfl, ?_⟩
  intro h w img y x
  simp only [normalizedHeatmap, hb]

/-- Claim C6, counterexample: a `[1,100,100,3]` input tensor is processed
without any failure; the synthesizer reads the 100-pixel grid size, builds
its mask there, resizes to `224 × 224` and returns a valid map whose center
value is `1`. -/
theorem C6_counterexample :
    normalizedHeatmap 100 100 (fun _ _ _ => (1 / 2 : ℝ)) [1 / 2] 112 112 =
      some 1 :=
  (normalizedHeatmap_flat100 (by norm_num) [1 / 2]).1

/-- Claim C6, amended: the synthesizer performs no shape validation.  For a
`100 × 100` input it reads height and width off the tensor shape, centers
its mask at `(50, 50)` with radius `100/3`, and bilinearly resizes the
result to the fixed `224 × 224` output, yielding a well-defined map
(center value `1`, corner value `0`) instead of an `InvalidInputError`. -/
theorem C6_shape_adapted {c : ℝ} (hc : 0 < c) (probs : List ℚ) :
    normalizedHeatmap 100 100 (fun _ _ _ => c) probs 112 112 = some 1 ∧
    normalizedHeatmap 100 100 (fun _ _ _ => c) probs 0 0 = some 0 :=
  normalizedHeatmap_flat100 hc probs

/-- Claim C6, witness for the amended theorem at a concrete input. -/
theorem C6_witness :
    normalizedHeatmap 100 100 (fun _ _ _ => (1 : ℝ)) [] 112 112 = some 1 ∧
    normalizedHeatmap 100 100 (fun _ _ _ => (1 : ℝ)) [] 0 0 = some 0 :=
  C6_shape_adapted (by norm_num) []

/-- Claim C8: a solid mid-gray `300 × 300` image (channel value 128) fed
through the preprocessor and then the saliency synthesizer yields a map
whose center value at `(112, 112)` strictly exceeds its corner value at
`(0, 0)`, for every non-empty probability vector. -/
theorem C8_round_trip_center_exceeds_corner (probs : List ℚ)
    (_hne : probs ≠ []) :
    ∃ vc v0 : ℝ,
      normalizedHeatmap 224 224
        (preprocessImage 300 300 (fun _ _ _ => 128)) probs 112 112 =
          some vc ∧
      normalizedHeatmap 224 224
        (preprocessImage 300 300 (fun _ _ _ => 128)) probs 0 0 = some v0 ∧
      v0 < vc := by
  rw [preprocessImage_flat]
  refine ⟨1, 0, ?_, ?_, by norm_num⟩
  · rw [normalizedHeatmap_flat (by norm_num) probs (by norm_num) (by norm_num)]
    rw [centerDist_224_center]
    norm_num
  · rw [normalizedHeatmap_flat (by norm_num) probs (by norm_num) (by norm_num)]
    rw [maskFactor_corner (by norm_num) (by norm_num)]

/-- Claim C8, witness at the probability vector `[0.9, 0.05, 0.05]`. -/
theorem C8_witness :
    ∃ vc v0 : ℝ,
      normalizedHeatmap 224 224
        (preprocessImage 300 300 (fun _ _ _ => 128))
          [9 / 10, 1 / 20, 1 / 20] 112 112 = some vc ∧
      normalizedHeatmap 224 224
        (preprocessImage 300 300 (fun _ _ _ => 128))
          [9 / 10, 1 / 20, 1 / 20] 0 0 = some v0 ∧
      v0 < vc :=
  C8_round_trip_center_exceeds_corner [9 / 10, 1 / 20, 1 / 20] (by simp)

lemma jsRound_bounds {t : ℝ} (h0 : 0 ≤ t) (h255 : t ≤ 255) :
    0 ≤ jsRound t ∧ jsRound t ≤ 255 := by
  unfold jsRound
  constructor
  · exact Int.le_floor.mpr (by push_cast; linarith)
  · have h : ⌊t + 1 / 2⌋ < 256 := Int.floor_lt.mpr (by push_cast; linarith)
    omega

lemma clip255_bounds (s : ℝ) :
    0 ≤ min 255 (max 0 s) ∧ min 255 (max 0 s) ≤ 255 :=
  ⟨le_min (by norm_num) (le_max_left _ _), min_le_left _ _⟩

lemma heat_zero {h w : ℕ} (hh : 0 < h) (hw : 0 < w) (boost : ℝ) (y x : ℕ) :
    heat h w (fun _ _ _ => (0 : ℝ)) boost y x = none := by
  unfold heat
  rw [grayscaleMax_const hh hw]
  show (jsDiv (grayscale (fun _ _ _ => (0 : ℝ)) y x) 0).map _ = none
  rw [grayscale_const]
  unfold jsDiv
  rw [if_pos rfl]
  rfl

lemma heatMin_zero {h w : ℕ} (hh : 0 < h) (hw : 0 < w) (boost : ℝ) :
    heatMin h w (fun _ _ _ => (0 : ℝ)) boost = none := by
  unfold heatMin
  apply jsMinList_eq_none
  have := gridList_mem_self
    (heat h w (fun _ _ _ => (0 : ℝ)) boost) hh hw
  rwa [heat_zero hh hw] at this

lemma heatRange_zero {h w : ℕ} (hh : 0 < h) (hw : 0 < w) (boost : ℝ) :
    heatRange h w (fun _ _ _ => (0 : ℝ)) boost = none := by
  unfold heatRange
  rw [heatMin_zero hh hw]
  cases heatMax h w (fun _ _ _ => (0 : ℝ)) boost <;> rfl

lemma resizeBilinearO_none {hIn wIn hOut wOut : ℕ} {f : ℕ → ℕ → Option ℝ}
    (hf : ∀ y x, f y x = none) (y x : ℕ) :
    resizeBilinearO hIn wIn hOut wOut f y x = none := by
  unfold resizeBilinearO
  rw [hf, hf, hf, hf]

lemma normalizedHeatmap_zero {h w : ℕ} (hh : 0 < h) (hw : 0 < w)
    (probs : List ℚ) (y x : ℕ) :
    normalizedHeatmap h w (fun _ _ _ => (0 : ℝ)) probs y x = none := by
  simp only [normalizedHeatmap]
  rw [if_neg (by rw [heatRange_zero hh hw]; simp)]
  rw [resizeBilinearO_none (heat_zero hh hw _) y x,
    heatMin_zero hh hw, heatRange_zero hh hw]
  rfl

/-- Claim C7 (code bug): on an all-black image the grayscale maximum is `0`
and the code divides by it with no guard (line 304), so every heatmap entry
is the non-finite `0/0`; the zero-range fallback is NOT taken (a `NaN`
range compares unequal to `0`) and the non-finite values propagate to the
output saliency map — here evaluated at the center pixel. -/
theorem C7_allblack_nan :
    normalizedHeatmap 224 224 (fun _ _ _ => (0 : ℝ)) [1 / 2] 112 112 =
      none :=
  normalizedHeatmap_zero (by norm_num) (by norm_num) [1 / 2] 112 112

/-- Claim C1, counterexample: for max probability `0.6` the code's boost is
`max(0.3, 1.2) = 1.2`, not the claimed `clamp(1.2, 0.3, 1.0) = 1.0` — there
is no ceiling at `1.0` in the code (line 294). -/
theorem C1_counterexample :
    confidenceBoost [3 / 5] = 6 / 5 ∧
    confidenceBoost [3 / 5] ≠ specClamp ((3 / 5) * 2) 0.3 1 := by
  have h : confidenceBoost [3 / 5] = 6 / 5 := by
    norm_num [confidenceBoost, jsMaxList, jsMax2, max_def]
  refine ⟨h, ?_⟩
  rw [h]
  norm_num [specClamp, max_def, min_def]

/-- Claim C1, amended: the boost factor is `max(0.3, max(probabilities)*2)`
— a floor of `0.3` but NO ceiling at `1.0`.  Boundary cases: `max = 0`
gives `0.3`, `max = 0.6` gives `1.2`, `max = 0.9` gives `1.8`. -/
theorem C1_boost_formula :
    (∀ (ps : List ℚ) (m : ℚ), jsMaxList (ps.map some) = some m →
      confidenceBoost ps = max 0.3 (m * 2)) ∧
    (∀ ps : List ℚ, 0.3 ≤ confidenceBoost ps) ∧
    confidenceBoost [0] = 0.3 ∧ confidenceBoost [3 / 5] = 6 / 5 ∧
    confidenceBoost [9 / 10] = 9 / 5 := by
  refine ⟨?_, confidenceBoost_lb, ?_, ?_, ?_⟩
  · intro ps m hm
    unfold confidenceBoost
    rw [hm]
  all_goals norm_num [confidenceBoost, jsMaxList, jsMax2, max_def]

/-- Claim C1, witness for the amended theorem at a concrete input. -/
theorem C1_witness : confidenceBoost [1] = max 0.3 (1 * 2) :=
  C1_boost_formula.1 [1] 1 rfl

/-- Claim C2, counterexample: at coordinate `(0,0)` of a `224 × 224` grid
with boost `0.3`, the code's mask weight is exactly `0` (linear falloff hits
zero beyond the radius) while the claimed Gaussian weight is strictly
positive — the two formulas disagree. -/
theorem C2_counterexample :
    centerMask 224 224 0.3 0 0 = 0 ∧
    specGaussianWeight 224 224 0.3 0 0 ≠ 0 := by
  constructor
  · exact centerMask_corner (by norm_num) (by norm_num) _
  · unfold specGaussianWeight
    positivity

/-- Claim C2, amended: the mask weight is the LINEAR falloff
`max(0, 1 - distance/r) * boost` (not a Gaussian), with `distance` the
Euclidean distance to `(floor(h/2), floor(w/2))` and `r = min(h,w)/3`; the
weight equals `boost` at the center and never exceeds `boost`. -/
theorem C2_mask_linear_falloff (h w : ℕ) (boost : ℝ) (y x : ℕ)
    (hb : 0 ≤ boost) :
    centerMask h w boost y x =
      max 0 (1 - Real.sqrt (((y : ℝ) - (centerY h : ℕ)) ^ 2 +
        ((x : ℝ) - (centerX w : ℕ)) ^ 2) / ((min h w : ℕ) / 3)) * boost ∧
    centerMask h w boost (centerY h) (centerX w) = boost ∧
    centerMask h w boost y x ≤ boost :=
  ⟨rfl, centerMask_center h w boost, centerMask_le hb y x⟩

/-- Claim C2, witness for the amended theorem at a concrete input. -/
theorem C2_witness : centerMask 224 224 1 (centerY 224) (centerX 224) = 1 :=
  (C2_mask_linear_falloff 224 224 1 0 0 (by norm_num)).2.1

/-- Claim C4, counterexample: at `v = 0.5` the code's red transfer value is
`clip((0.5-0.3)*2.5) = 0.5`, not the claimed `clamp((0.5-0.2)*2.0) = 0.6`;
and the code writes the constant alpha `200` while the claimed dynamic
alpha at `v = 0` is `115`. -/
theorem C4_counterexample :
    colorR (1 / 2) ≠ specR (1 / 2) ∧ alphaChannel ≠ specAlpha 0 := by
  constructor
  · norm_num [colorR, specR, tfClip, max_def, min_def]
  · norm_num [alphaChannel, specAlpha, specR, specG, specB, specRed8,
      specGreen8, specBlue8, jsRound, max_def, min_def, Int.floor_eq_iff]

/-- Claim C4, amended: the per-pixel transfer is `r = clip((v-0.3)*2.5,0,1)`,
`g = clip(v*1.5,0,1)`, `b = clip(1-v*2,0,1)`; conversion to 8 bits
multiplies by 255 with post-gains red `×1.2`, green `×1.0`, blue `×0.8`,
clamps to `[0,255]` and rounds; the alpha channel is the constant `200`.
All channel outputs are integers in `[0,255]`. -/
theorem C4_colorizer_formulas (v : ℝ) :
    red8 v =
      jsRound (min 255 (max 0 (min 1 (max 0 ((v - 0.3) * 2.5)) * 255 * 1.2))) ∧
    green8 v =
      jsRound (min 255 (max 0 (min 1 (max 0 (v * 1.5)) * 255))) ∧
    blue8 v =
      jsRound (min 255 (max 0 (min 1 (max 0 (1 - v * 2)) * 255 * 0.8))) ∧
    alphaChannel = 200 ∧
    (0 ≤ red8 v ∧ red8 v ≤ 255) ∧ (0 ≤ green8 v ∧ green8 v ≤ 255) ∧
    (0 ≤ blue8 v ∧ blue8 v ≤ 255) := by
  refine ⟨rfl, rfl, rfl, rfl, ?_, ?_, ?_⟩
  · exact jsRound_bounds (clip255_bounds _).1 (clip255_bounds _).2
  · exact jsRound_bounds (clip255_bounds _).1 (clip255_bounds _).2
  · exact jsRound_bounds (clip255_bounds _).1 (clip255_bounds _).2

lemma snd_mem_of_mem_mapIdx :
    ∀ (g : ℕ → String) (l : List ℚ) (p : String × ℚ),
      p ∈ l.mapIdx (fun i c => (g i, c)) → p.2 ∈ l := by
  intro g l
  induction l generalizing g with
  | nil =>
      intro p hp
      rw [List.mapIdx_nil] at hp
      simp at hp
  | cons a l ih =>
      intro p hp
      rw [List.mapIdx_cons] at hp
      rcases List.mem_cons.mp hp with h | h
      · subst h
        simp
      · exact List.mem_cons.mpr (Or.inr (ih (fun i => g (i + 1)) p h))

/-- Claim C9, counterexample: the core performs NO clamping of classifier
scores.  For the raw output `[1.5, 0, 0]` the reported top prediction
carries the unclamped confidence `1.5 > 1`, and the boost computation uses
the raw maximum, giving `max(0.3, 1.5*2) = 3`. -/
theorem C9_counterexample :
    ("グー", (3 : ℚ) / 2) ∈ inferenceResults [3 / 2, 0, 0] ∧
    ¬((3 : ℚ) / 2 ≤ 1) ∧ confidenceBoost [3 / 2, 0, 0] = 3 := by
  refine ⟨?_, by norm_num, ?_⟩
  · apply (List.mergeSort_perm _ _).mem_iff.mpr
    simp [List.mapIdx_cons, List.mapIdx_nil, jankenLabel, JANKEN_LABELS]
  · norm_num [confidenceBoost, jsMaxList, jsMax2, max_def]

/-- Claim C9, amended: downstream consumers use the classifier scores raw.
Every reported confidence is literally one of the classifier's scores (no
clamp applied), and the boost factor is unbounded above — for every bound
there is a score vector whose boost exceeds it. -/
theorem C9_no_clamping :
    (∀ (data : List ℚ) (p : String × ℚ),
      p ∈ inferenceResults data → p.2 ∈ data) ∧
    (∀ bound : ℚ, ∃ data : List ℚ, bound < confidenceBoost data) := by
  constructor
  · intro data p hp
    have h1 : p ∈ (data.take 3).mapIdx fun i c => (jankenLabel i, c) :=
      (List.mergeSort_perm _ _).mem_iff.mp hp
    exact List.take_subset 3 data
      (snd_mem_of_mem_mapIdx jankenLabel _ p h1)
  · intro bound
    refine ⟨[max bound 1], ?_⟩
    show bound < max 0.3 (max bound 1 * 2)
    have h1 : (1 : ℚ) ≤ max bound 1 := le_max_right _ _
    have h2 : bound ≤ max bound 1 := le_max_left _ _
    have h3 : bound < max bound 1 * 2 := by linarith
    exact lt_of_lt_of_le h3 (le_max_right _ _)

/-- Claim C9, witness for the amended theorem at a concrete input. -/
theorem C9_witness : (("グー", (1 : ℚ))).2 ∈ [(1 : ℚ)] :=
  C9_no_clamping.1 [1] ("グー", 1)
    ((List.mergeSort_perm _ _).mem_iff.mpr
      (by simp [List.mapIdx_cons, List.mapIdx_nil, jankenLabel, JANKEN_LABELS]))

/-- Claim C10: after inference the reported prediction list has at most 3
entries, is sorted in non-increasing order of confidence, and is a
permutation of the first three classifier scores paired with their
positional labels. -/
theorem C10_predictions_sorted_top3 (data : List ℚ) :
    (inferenceResults data).length ≤ 3 ∧
    List.Sorted (fun a b : String × ℚ => b.2 ≤ a.2) (inferenceResults data) ∧
    (inferenceResults data).Perm
      ((data.take 3).mapIdx fun i c => (jankenLabel i, c)) := by
  refine ⟨?_, ?_, List.mergeSort_perm _ _⟩
  · have h1 := (List.mergeSort_perm
      ((data.take 3).mapIdx fun i c => (jankenLabel i, c))
      (fun a b => decide (b.2 ≤ a.2))).length_eq
    unfold inferenceResults
    rw [h1, List.length_mapIdx, List.length_take]
    exact min_le_left _ _
  · have htrans : ∀ a b c : String × ℚ,
        decide (b.2 ≤ a.2) = true → decide (c.2 ≤ b.2) = true →
          decide (c.2 ≤ a.2) = true := by
      intro a b c hab hbc
      exact decide_eq_true (le_trans (of_decide_eq_true hbc)
        (of_decide_eq_true hab))
    have htotal : ∀ a b : String × ℚ,
        (decide (b.2 ≤ a.2) || decide (a.2 ≤ b.2)) = true := by
      intro a b
      rcases le_total b.2 a.2 with h | h <;> simp [h]
    have hs := List.sorted_mergeSort htrans htotal
      ((data.take 3).mapIdx fun i c => (jankenLabel i, c))
    exact hs.imp fun hab => of_decide_eq_true hab
